import Mathlib

/-!
gogstash: the docker log input and the syslog input.

A shallow embedding of `input/dockerlog/inputdockerlog.go` (the name filter
`isValidContainer`, the pattern compilation of `InitHandler`, and the
snapshot / listener phases of `start`) and of the field renaming step of
`input/syslog/inputsyslog.go`, followed by theorems about them.

External collaborators are represented by their observable answers:
a compiled regular expression by its `MatchString` function, the docker
client and the checkpoint store by the values their calls return.
-/

set_option autoImplicit false

namespace Dockerlog

/-! ## Data model -/

/-- A compiled regular expression (`*regexp.Regexp`), represented by the only
method the input calls on it. -/
structure Regexp where
  MatchString : String → Bool

/-- Errors are chains of messages: `errutil.New(msg, cause)` puts `msg` in
front of the messages of `cause`. -/
abbrev Err := List String

/-- The fields of `InputConfig` that the filter and `InitHandler` touch. The
fields `sincedb` and `client` are represented by `Env` below. -/
structure InputConfig where
  DockerURL : String
  IncludePatterns : List String
  ExcludePatterns : List String
  SincePath : String
  ConnectionRetryInterval : Int
  includes : List Regexp
  excludes : List Regexp
  hostname : String

/-- The configuration `DefaultInputConfig()` returns; fields it does not
mention have Go zero values. -/
def DefaultInputConfig : InputConfig :=
  { DockerURL := "unix:///var/run/docker.sock"
    ConnectionRetryInterval := 10
    ExcludePatterns := ["gogstash"]
    SincePath := "sincedb-%\x7bHOSTNAME\x7d"
    IncludePatterns := []
    includes := []
    excludes := []
    hostname := "" }

/-! ## The name filter -/

/-- The method `isValidContainer`: the outer loop runs over the names; for each
name the first inner loop returns `false` on an exclude match, the
second returns `true` on an include match; after the loops the answer is
`false` when `len(t.includes) > 0` and `true` otherwise. -/
def isValidContainer (t : InputConfig) : List String → Bool
  | [] => if t.includes.length > 0 then false else true
  | name :: rest =>
    if t.excludes.any (fun re => re.MatchString name) then false
    else if t.includes.any (fun re => re.MatchString name) then true
    else isValidContainer t rest

/-! ## Pattern compilation in `InitHandler` -/

/-- What `InitHandler` asks of its surroundings: `config.ReflectConfig`, applied
to the default configuration; `regexp.MustCompile`, with `none` standing for
its panic on a malformed pattern; and the error results of `NewSinceDB`,
`os.Hostname` and `docker.NewClient`. -/
structure InitDeps where
  ReflectConfig : InputConfig → Except Err InputConfig
  MustCompile : String → Option Regexp
  NewSinceDB : String → Option Err
  Hostname : Except Err String
  NewClient : String → Option Err

/-- How a call of `InitHandler` ends. -/
inductive InitResult where
  | panicked
  | failed (err : Err)
  | ok (conf : InputConfig)

/-- One compilation loop of `InitHandler`:
`for _, pattern := range patterns { acc = append(acc, regexp.MustCompile(pattern)) }`. -/
def compileInto (MustCompile : String → Option Regexp) :
    List Regexp → List String → Option (List Regexp)
  | acc, [] => some acc
  | acc, pattern :: rest =>
    match MustCompile pattern with
    | none => none
    | some re => compileInto MustCompile (acc ++ [re]) rest

/-- The function `InitHandler`. -/
def InitHandler (d : InitDeps) : InitResult :=
  match d.ReflectConfig DefaultInputConfig with
  | .error e => .failed e
  | .ok conf =>
    match compileInto d.MustCompile conf.includes conf.IncludePatterns with
    | none => .panicked
    | some incs =>
      match compileInto d.MustCompile conf.excludes conf.ExcludePatterns with
      | none => .panicked
      | some excs =>
        match d.NewSinceDB conf.SincePath with
        | some e => .failed e
        | none =>
          match d.Hostname with
          | .error e => .failed ("get hostname failed" :: e)
          | .ok h =>
            match d.NewClient conf.DockerURL with
            | some e => .failed ("create docker client failed" :: e)
            | none => .ok { conf with includes := incs, excludes := excs, hostname := h }

/-! ## The discovery phases of `start` -/

/-- An entry of the list `ListContainers` returns (`docker.APIContainers`). -/
structure APIContainers where
  ID : String
  Names : List String
deriving DecidableEq

/-- The result of `InspectContainer` (`*docker.Container`). -/
structure Container where
  ID : String
  Name : String
deriving DecidableEq

/-- A lifecycle event (`*docker.APIEvents`). -/
structure APIEvents where
  Status : String
  ID : String
deriving DecidableEq

/-- The first argument of `containerLogLoop`: the snapshot loop passes the
listed entry, the listener loop passes the inspected container. -/
inductive LogTarget where
  | listed (c : APIContainers)
  | inspected (c : Container)
deriving DecidableEq

/-- The container ID a tail task is started for. -/
def LogTarget.ID : LogTarget → String
  | .listed c => c.ID
  | .inspected c => c.ID

/-- The calls `start` makes on its collaborators, in the order it makes them.
`spawn` is the statement `go t.containerLogLoop(container, since, evchan, logger)`;
`logError` is the deferred `logger.Errorln(err)`. -/
inductive Action (Pos : Type) where
  | listContainers
  | sincedbGet (id : String)
  | spawn (target : LogTarget) (since : Pos)
  | addEventListener
  | inspectContainer (id : String)
  | logError (err : Err)
deriving DecidableEq

/-- The answers of the docker client and of the checkpoint store to the
calls of `start`; during one run a call with the same argument gets the same
answer. -/
structure Env (Pos : Type) where
  ListContainers : Except Err (List APIContainers)
  sincedbGet : String → Except Err Pos
  AddEventListener : Option Err
  InspectContainer : String → Except Err Container

/-- How a run of `start` stands once the given events are consumed: it has
returned `err`, or it is blocked in `select` on the event channel. -/
inductive Outcome where
  | returned (err : Err)
  | waiting
deriving DecidableEq

/-- The loop over the listed containers (source lines 91 to 100). The second
component is the error the loop makes `start` return, if any. -/
def snapshotLoop {Pos : Type} (t : InputConfig) (env : Env Pos) :
    List APIContainers → List (Action Pos) × Option Err
  | [] => ([], none)
  | container :: rest =>
    if !isValidContainer t container.Names then snapshotLoop t env rest
    else
      match env.sincedbGet container.ID with
      | .error e => ([.sincedbGet container.ID], some ("get sincedb failed" :: e))
      | .ok since =>
        let r := snapshotLoop t env rest
        (.sincedbGet container.ID :: .spawn (.listed container) since :: r.1, r.2)

/-- The listener loop (source lines 108 to 126), run on the events the
channel delivers, in order. -/
def listenLoop {Pos : Type} (t : InputConfig) (env : Env Pos) :
    List APIEvents → List (Action Pos) × Outcome
  | [] => ([], .waiting)
  | dockerEvent :: rest =>
    if dockerEvent.Status = "start" then
      match env.InspectContainer dockerEvent.ID with
      | .error e =>
        ([.inspectContainer dockerEvent.ID], .returned ("inspect container failed" :: e))
      | .ok container =>
        if !isValidContainer t [container.Name] then
          ([.inspectContainer dockerEvent.ID],
            .returned ["invalid container name " ++ container.Name])
        else
          match env.sincedbGet dockerEvent.ID with
          | .error e =>
            ([.inspectContainer dockerEvent.ID, .sincedbGet dockerEvent.ID],
              .returned ("get sincedb failed" :: e))
          | .ok since =>
            let r := listenLoop t env rest
            (.inspectContainer dockerEvent.ID :: .sincedbGet dockerEvent.ID ::
              .spawn (.inspected container) since :: r.1, r.2)
    else listenLoop t env rest

/-- The deferred function of `start`: it logs the returned error. A run that
has not returned has logged nothing. -/
def deferred {Pos : Type} : Outcome → List (Action Pos)
  | .returned err => [.logError err]
  | .waiting => []

/-- The method `start`, run on the events the docker event channel delivers. -/
def start {Pos : Type} (t : InputConfig) (env : Env Pos) (events : List APIEvents) :
    List (Action Pos) × Outcome :=
  match env.ListContainers with
  | .error e =>
    let err := "list docker container failed" :: e
    ([.listContainers, .logError err], .returned err)
  | .ok containers =>
    let snap := snapshotLoop t env containers
    match snap.2 with
    | some err => (.listContainers :: snap.1 ++ [.logError err], .returned err)
    | none =>
      match env.AddEventListener with
      | some e =>
        let err := "listen docker event failed" :: e
        (.listContainers :: snap.1 ++ [.addEventListener, .logError err], .returned err)
      | none =>
        let live := listenLoop t env events
        (.listContainers :: snap.1 ++ .addEventListener :: live.1 ++ deferred live.2, live.2)

/-- Whether an action is the call of `AddEventListener`. -/
def Action.isAddEventListener {Pos : Type} : Action Pos → Bool
  | .addEventListener => true
  | _ => false

/-- Whether an action spawns a tail task of the snapshot loop. -/
def Action.isSnapshotSpawn {Pos : Type} : Action Pos → Bool
  | .spawn (.listed _) _ => true
  | _ => false

/-- The container IDs of the tail tasks spawned in a sequence of actions, one
entry per spawned task. -/
def spawnedIDs {Pos : Type} : List (Action Pos) → List String
  | [] => []
  | .spawn target _ :: rest => target.ID :: spawnedIDs rest
  | _ :: rest => spawnedIDs rest

/-- The actions a run performs before it calls `AddEventListener`. -/
def beforeSubscription {Pos : Type} (trace : List (Action Pos)) : List (Action Pos) :=
  trace.takeWhile (fun a => !a.isAddEventListener)

end Dockerlog

/-! ## The checkpoint store -/

namespace Dockerlog.Checkpoint

/-- Modelled from the spec: the persisted state of the checkpoint store, whose
source file (the definition of `SinceDB`) is missing. A checkpoint file is
absent, unreadable, or holds a mapping from container ID to position. -/
inductive CheckpointFile (Pos : Type) where
  | missing
  | unreadable
  | stored (entries : List (String × Pos))

/-- Modelled from the spec: the file system the missing `SinceDB` persists to,
as the file found at each path and whether that path can be written. -/
structure Disk (Pos : Type) where
  file : String → CheckpointFile Pos
  writable : String → Bool

/-- Modelled from the spec: the missing type `SinceDB`, a mapping from
container ID to last-read position, backed by the single file at `path`. -/
structure SinceDB (Pos : Type) where
  path : String
  entries : List (String × Pos)

/-- Modelled from the spec: the position recorded for a container ID in the
mapping of the missing `SinceDB`, if any. -/
def lookup {Pos : Type} (id : String) : List (String × Pos) → Option Pos
  | [] => none
  | (k, p) :: rest => if k = id then some p else lookup id rest

/-- Modelled from the spec: recording a position in the mapping of the missing
`SinceDB`; there is one record per container ID, so an existing record is
replaced. -/
def record {Pos : Type} (id : String) (p : Pos) : List (String × Pos) → List (String × Pos)
  | [] => [(id, p)]
  | (k, q) :: rest => if k = id then (id, p) :: rest else (k, q) :: record id p rest

/-- Modelled from the spec: the missing constructor `NewSinceDB`, which loads
the mapping once at startup; an unreadable or unwritable file is an error. -/
def NewSinceDB {Pos : Type} (disk : Disk Pos) (path : String) : Except Err (SinceDB Pos) :=
  if disk.writable path then
    match disk.file path with
    | .missing => .ok { path := path, entries := [] }
    | .unreadable => .error ["sincedb file unreadable"]
    | .stored entries => .ok { path := path, entries := entries }
  else .error ["sincedb file unwritable"]

/-- Modelled from the spec: the missing method `SinceDB.Get`, which returns the
last known position, or the sentinel `beginning` when none is recorded, and
does not fail for an unknown ID. -/
def SinceDB.Get {Pos : Type} (beginning : Pos) (db : SinceDB Pos) (id : String) :
    Except Err Pos :=
  .ok ((lookup id db.entries).getD beginning)

/-- Modelled from the spec: the missing method `SinceDB.Set`, which durably
records the new position by replacing the file with the new mapping; a write
failure is reported as an error. -/
def SinceDB.Set {Pos : Type} (db : SinceDB Pos) (disk : Disk Pos) (id : String) (p : Pos) :
    Except Err (SinceDB Pos × Disk Pos) :=
  if disk.writable db.path then
    let entries := record id p db.entries
    .ok ({ db with entries := entries },
      { disk with file := fun q => if q = db.path then .stored entries else disk.file q })
  else .error ["sincedb write failed"]

end Dockerlog.Checkpoint

/-! ## Field renaming in the syslog input -/

namespace Syslog

/-- A Go map from string keys (`syslog.LogParts`, `map[string]interface{}`): the
value stored under each key, if the key is present. -/
abbrev LogParts (V : Type) := String → Option V

/-- The index expression `event[k]`: the zero value `zero` (the nil interface)
when the key is absent. -/
def index {V : Type} (zero : V) (event : LogParts V) (k : String) : V :=
  (event k).getD zero

/-- The assignment `event[k] = v`. -/
def assign {V : Type} (event : LogParts V) (k : String) (v : V) : LogParts V :=
  fun q => if q = k then some v else event q

/-- The builtin `delete(event, k)`. -/
def delete {V : Type} (event : LogParts V) (k : String) : LogParts V :=
  fun q => if q = k then none else event q

/-- The body of the loop over `i.Mutate` (source lines 109 and 110). -/
def renameField {V : Type} (zero : V) (event : LogParts V) (old new : String) : LogParts V :=
  delete (assign event new (index zero event old)) old

/-- The loop `for old, new := range i.Mutate`, with the entries of the map
given in the order the range visits them. -/
def mutate {V : Type} (zero : V) (event : LogParts V) (entries : List (String × String)) :
    LogParts V :=
  entries.foldl (fun ev entry => renameField zero ev entry.1 entry.2) event

end Syslog

/-! ## Concrete inputs -/

namespace Dockerlog

/-- Substring test on character lists: whether `pat` occurs in the list. -/
def containsSubstr (pat : List Char) : List Char → Bool
  | [] => pat.isEmpty
  | c :: cs => pat.isPrefixOf (c :: cs) || containsSubstr pat cs

/-- The matcher of a pattern without metacharacters: it matches the strings
that contain the pattern. -/
def literal (pat : String) : Regexp :=
  { MatchString := fun s => containsSubstr pat.data s.data }

/-- A configuration with include pattern `web` and exclude pattern `db`. -/
def webDbConfig : InputConfig :=
  { DefaultInputConfig with
    IncludePatterns := ["web"]
    ExcludePatterns := ["db"]
    includes := [literal "web"]
    excludes := [literal "db"] }

/-- The default configuration once `InitHandler` has compiled its patterns
to substring matchers on the host `host1`. -/
def gogstashConfig : InputConfig :=
  { DefaultInputConfig with
    excludes := [literal "gogstash"]
    hostname := "host1" }

/-- A docker daemon with two running containers, `c1` named `/web-1` and `c2`
named `/db-1`, which can also inspect `c3` (named `/web-3`) and `c4` (named
`/db-4`); the checkpoint store holds position `7` for `c1` and `0` otherwise. -/
def demoEnv : Env Nat :=
  { ListContainers := .ok [⟨"c1", ["/web-1"]⟩, ⟨"c2", ["/db-1"]⟩]
    sincedbGet := fun id => .ok (if id = "c1" then 7 else 0)
    AddEventListener := none
    InspectContainer := fun id =>
      if id = "c3" then .ok ⟨"c3", "/web-3"⟩
      else if id = "c4" then .ok ⟨"c4", "/db-4"⟩
      else .error ["no such container"] }

/-- Surroundings of `InitHandler` in which the configuration file overrides
nothing, patterns compile to substring matchers and every step succeeds. -/
def demoDeps : InitDeps :=
  { ReflectConfig := fun conf => .ok conf
    MustCompile := fun pattern => some (literal pattern)
    NewSinceDB := fun _ => none
    Hostname := .ok "host1"
    NewClient := fun _ => none }

end Dockerlog

namespace Dockerlog.Checkpoint

/-- A disk on which every path is writable and only `sincedb-host1` holds a
checkpoint file, with position `5` for `c1`. -/
def demoDisk : Disk Nat :=
  { file := fun q => if q = "sincedb-host1" then .stored [("c1", 5)] else .missing
    writable := fun _ => true }

/-- The store loaded from `demoDisk`. -/
def demoDB : SinceDB Nat :=
  { path := "sincedb-host1", entries := [("c1", 5)] }

end Dockerlog.Checkpoint

namespace Syslog

/-- A syslog event with the fields `hostname` and `tag`. -/
def demoEvent : LogParts Nat :=
  fun q => if q = "hostname" then some 1 else if q = "tag" then some 2 else none

end Syslog

/-! ## Theorems: the name filter -/

namespace Dockerlog

theorem isValidContainer_nil (t : InputConfig) :
    isValidContainer t [] = t.includes.isEmpty := by
  cases h : t.includes <;> simp [isValidContainer, h]

theorem isValidContainer_cons_excluded (t : InputConfig) (n : String) (rest : List String)
    (h : ∃ re ∈ t.excludes, re.MatchString n = true) :
    isValidContainer t (n :: rest) = false := by
  have : t.excludes.any (fun re => re.MatchString n) = true := List.any_eq_true.mpr h
  simp [isValidContainer, this]

theorem isValidContainer_cons_included (t : InputConfig) (n : String) (rest : List String)
    (hex : ¬ ∃ re ∈ t.excludes, re.MatchString n = true)
    (hin : ∃ re ∈ t.includes, re.MatchString n = true) :
    isValidContainer t (n :: rest) = true := by
  have h1 : t.excludes.any (fun re => re.MatchString n) = false := by
    rw [← Bool.not_eq_true, List.any_eq_true]; exact hex
  have h2 : t.includes.any (fun re => re.MatchString n) = true := List.any_eq_true.mpr hin
  simp [isValidContainer, h1, h2]

theorem isValidContainer_cons_skip (t : InputConfig) (n : String) (rest : List String)
    (hex : ∀ re ∈ t.excludes, re.MatchString n = false)
    (hin : ∀ re ∈ t.includes, re.MatchString n = false) :
    isValidContainer t (n :: rest) = isValidContainer t rest := by
  have h1 : t.excludes.any (fun re => re.MatchString n) = false := by
    rw [List.any_eq_false]; intro re hre; simp [hex re hre]
  have h2 : t.includes.any (fun re => re.MatchString n) = false := by
    rw [List.any_eq_false]; intro re hre; simp [hin re hre]
  simp [isValidContainer, h1, h2]

theorem isValidContainer_append_skip (t : InputConfig) (pre rest : List String)
    (hex : ∀ m ∈ pre, ∀ re ∈ t.excludes, re.MatchString m = false)
    (hin : ∀ m ∈ pre, ∀ re ∈ t.includes, re.MatchString m = false) :
    isValidContainer t (pre ++ rest) = isValidContainer t rest := by
  induction pre with
  | nil => rfl
  | cons m pre ih =>
    rw [List.cons_append, isValidContainer_cons_skip t m _
      (hex m (List.mem_cons_self _ _)) (hin m (List.mem_cons_self _ _))]
    exact ih (fun x hx => hex x (List.mem_cons_of_mem _ hx))
      (fun x hx => hin x (List.mem_cons_of_mem _ hx))

theorem isValidContainer_no_includes_excluded (t : InputConfig) (names : List String)
    (n : String) (hinc : t.includes = []) (hmem : n ∈ names)
    (hn : ∃ re ∈ t.excludes, re.MatchString n = true) :
    isValidContainer t names = false := by
  induction names with
  | nil => cases hmem
  | cons m rest ih =>
    by_cases hm : ∃ re ∈ t.excludes, re.MatchString m = true
    · exact isValidContainer_cons_excluded t m rest hm
    · rcases List.mem_cons.mp hmem with rfl | hrest
      · exact absurd hn hm
      · have h1 : t.excludes.any (fun re => re.MatchString m) = false := by
          rw [← Bool.not_eq_true, List.any_eq_true]; exact hm
        simp [isValidContainer, h1, hinc, ih hrest]

/-- C1 (as stated, refuted): with include pattern `web` and exclude pattern `db`,
the name list `["web", "db"]` contains a name matching an exclude pattern, yet
`isValidContainer` returns `true`, because the earlier name `web` matches an
include pattern first. -/
theorem c1_exclude_after_include_accepted :
    (∃ n ∈ ["web", "db"], ∃ re ∈ webDbConfig.excludes, re.MatchString n = true) ∧
      isValidContainer webDbConfig ["web", "db"] = true := by
  refine ⟨⟨"db", by simp, literal "db", by simp [webDbConfig], by decide⟩, by decide⟩

/-- C1 (amended): if a name of the list matches an exclude pattern and every
name before it that matches an include pattern also matches an exclude
pattern (in particular when no earlier name matches an include pattern), then
`isValidContainer` returns `false`, also when that name or a later name
matches an include pattern. -/
theorem isValidContainer_exclude_precedence (t : InputConfig) (pre post : List String)
    (n : String)
    (hn : ∃ re ∈ t.excludes, re.MatchString n = true)
    (hpre : ∀ m ∈ pre, (∃ re ∈ t.includes, re.MatchString m = true) →
      ∃ re ∈ t.excludes, re.MatchString m = true) :
    isValidContainer t (pre ++ n :: post) = false := by
  induction pre with
  | nil => exact isValidContainer_cons_excluded t n post hn
  | cons m pre ih =>
    rw [List.cons_append]
    by_cases hm : ∃ re ∈ t.excludes, re.MatchString m = true
    · exact isValidContainer_cons_excluded t m _ hm
    · have hex : ∀ re ∈ t.excludes, re.MatchString m = false := by
        intro re hre
        cases h : re.MatchString m
        · rfl
        · exact absurd ⟨re, hre, h⟩ hm
      have hin : ∀ re ∈ t.includes, re.MatchString m = false := by
        intro re hre
        cases h : re.MatchString m
        · rfl
        · exact absurd (hpre m (List.mem_cons_self _ _) ⟨re, hre, h⟩) hm
      rw [isValidContainer_cons_skip t m _ hex hin]
      exact ih (fun x hx => hpre x (List.mem_cons_of_mem _ hx))

/-- Witness for C1 (amended): the list `["app", "db-web", "web"]` under include
pattern `web` and exclude pattern `db`. -/
theorem isValidContainer_exclude_precedence_witness :
    isValidContainer webDbConfig (["app"] ++ "db-web" :: ["web"]) = false :=
  isValidContainer_exclude_precedence webDbConfig ["app"] ["web"] "db-web"
    ⟨literal "db", by simp [webDbConfig], by decide⟩
    (by
      rintro m hm ⟨re, hre, h⟩
      simp only [List.mem_singleton] at hm
      simp only [webDbConfig, List.mem_singleton] at hre
      subst hm hre
      revert h
      decide)

/-- C2: when no name of the list matches any exclude pattern and no name matches
any include pattern, `isValidContainer` returns `true` exactly when the include
list is empty. -/
theorem isValidContainer_default (t : InputConfig) (names : List String)
    (hex : ∀ m ∈ names, ∀ re ∈ t.excludes, re.MatchString m = false)
    (hin : ∀ m ∈ names, ∀ re ∈ t.includes, re.MatchString m = false) :
    isValidContainer t names = true ↔ t.includes = [] := by
  have h := isValidContainer_append_skip t names [] hex hin
  rw [List.append_nil] at h
  rw [h, isValidContainer_nil]
  exact List.isEmpty_iff

/-- Witness for C2: the names `["app", "cache"]` match neither `web` nor `db`,
and the include list is not empty, so the container is rejected. -/
theorem isValidContainer_default_witness :
    (isValidContainer webDbConfig ["app", "cache"] = true ↔ webDbConfig.includes = []) ∧
      isValidContainer webDbConfig ["app", "cache"] = false :=
  ⟨isValidContainer_default webDbConfig ["app", "cache"]
    (by
      intro m hm re hre
      simp only [webDbConfig, List.mem_singleton] at hre
      subst hre
      simp only [List.mem_cons, List.mem_singleton, List.mem_nil_iff, or_false] at hm
      rcases hm with rfl | rfl <;> decide)
    (by
      intro m hm re hre
      simp only [webDbConfig, List.mem_singleton] at hre
      subst hre
      simp only [List.mem_cons, List.mem_singleton, List.mem_nil_iff, or_false] at hm
      rcases hm with rfl | rfl <;> decide),
   by decide⟩

/-- C9: scanning the names in list order, if `n` is the first name that matches
any exclude or include pattern, then `isValidContainer` returns `false` when `n`
matches an exclude pattern and `true` when it matches none (and so matches an
include pattern), whatever the names after `n` are. -/
theorem isValidContainer_first_decisive (t : InputConfig) (pre post : List String)
    (n : String)
    (hex : ∀ m ∈ pre, ∀ re ∈ t.excludes, re.MatchString m = false)
    (hin : ∀ m ∈ pre, ∀ re ∈ t.includes, re.MatchString m = false)
    (hn : (∃ re ∈ t.excludes, re.MatchString n = true) ∨
      (∃ re ∈ t.includes, re.MatchString n = true)) :
    ((∃ re ∈ t.excludes, re.MatchString n = true) →
        isValidContainer t (pre ++ n :: post) = false) ∧
      ((¬ ∃ re ∈ t.excludes, re.MatchString n = true) →
        isValidContainer t (pre ++ n :: post) = true) := by
  rw [isValidContainer_append_skip t pre _ hex hin]
  refine ⟨fun h => isValidContainer_cons_excluded t n post h, fun h => ?_⟩
  rcases hn with hn | hn
  · exact absurd hn h
  · exact isValidContainer_cons_included t n post h hn

/-- Witness for C9: in `["app", "web-1", "db"]` the first decisive name is
`web-1`, which matches only the include pattern, so the result is `true`
although the later name `db` matches the exclude pattern. -/
theorem isValidContainer_first_decisive_witness :
    isValidContainer webDbConfig (["app"] ++ "web-1" :: ["db"]) = true :=
  (isValidContainer_first_decisive webDbConfig ["app"] ["db"] "web-1"
    (by
      intro m hm re hre
      simp only [List.mem_singleton] at hm
      simp only [webDbConfig, List.mem_singleton] at hre
      subst hm hre
      decide)
    (by
      intro m hm re hre
      simp only [List.mem_singleton] at hm
      simp only [webDbConfig, List.mem_singleton] at hre
      subst hm hre
      decide)
    (Or.inr ⟨literal "web", by simp [webDbConfig], by decide⟩)).2
    (by
      rintro ⟨re, hre, h⟩
      simp only [webDbConfig, List.mem_singleton] at hre
      subst hre
      revert h
      decide)

end Dockerlog

/-! ## Theorems: the phases of `start` -/

namespace Dockerlog

theorem snapshotLoop_not_subscribe {Pos : Type} (t : InputConfig) (env : Env Pos)
    (L : List APIContainers) :
    ∀ a ∈ (snapshotLoop t env L).1, a.isAddEventListener = false := by
  induction L with
  | nil => simp [snapshotLoop]
  | cons c L ih =>
    unfold snapshotLoop
    split
    · exact ih
    · split
      · simp [Action.isAddEventListener]
      · intro a ha
        simp only [List.mem_cons] at ha
        rcases ha with rfl | rfl | ha
        · rfl
        · rfl
        · exact ih a ha

theorem snapshotLoop_spawn_valid {Pos : Type} (t : InputConfig) (env : Env Pos)
    (L : List APIContainers) (c : APIContainers) (since : Pos)
    (h : Action.spawn (.listed c) since ∈ (snapshotLoop t env L).1) :
    c ∈ L ∧ isValidContainer t c.Names = true := by
  induction L with
  | nil => simp [snapshotLoop] at h
  | cons d L ih =>
    unfold snapshotLoop at h
    split at h
    · exact ⟨List.mem_cons_of_mem _ (ih h).1, (ih h).2⟩
    · rename_i hv
      split at h
      · simp at h
      · simp only [List.mem_cons, Action.spawn.injEq, LogTarget.listed.injEq, reduceCtorEq,
          false_or] at h
        rcases h with ⟨rfl, _⟩ | h
        · refine ⟨List.mem_cons_self _ _, ?_⟩
          simpa using hv
        · exact ⟨List.mem_cons_of_mem _ (ih h).1, (ih h).2⟩

theorem listenLoop_not_snapshot_spawn {Pos : Type} (t : InputConfig) (env : Env Pos)
    (events : List APIEvents) :
    ∀ a ∈ (listenLoop t env events).1, a.isSnapshotSpawn = false := by
  induction events with
  | nil => simp [listenLoop]
  | cons ev events ih =>
    unfold listenLoop
    split
    · split
      · simp [Action.isSnapshotSpawn]
      · split
        · simp [Action.isSnapshotSpawn]
        · split
          · simp [Action.isSnapshotSpawn]
          · intro a ha
            simp only [List.mem_cons] at ha
            rcases ha with rfl | rfl | rfl | ha
            · rfl
            · rfl
            · rfl
            · exact ih a ha
    · exact ih

theorem deferred_not_snapshot_spawn {Pos : Type} (o : Outcome) :
    ∀ a ∈ (deferred o : List (Action Pos)), a.isSnapshotSpawn = false := by
  cases o <;> simp [deferred, Action.isSnapshotSpawn]

theorem listenLoop_cons_other {Pos : Type} (t : InputConfig) (env : Env Pos)
    (ev : APIEvents) (rest : List APIEvents) (hs : ev.Status ≠ "start") :
    listenLoop t env (ev :: rest) = listenLoop t env rest := by
  rw [listenLoop]; simp [hs]

theorem listenLoop_cons_inspect_error {Pos : Type} (t : InputConfig) (env : Env Pos)
    (ev : APIEvents) (rest : List APIEvents) (e : Err) (hs : ev.Status = "start")
    (he : env.InspectContainer ev.ID = .error e) :
    listenLoop t env (ev :: rest) =
      ([.inspectContainer ev.ID], .returned ("inspect container failed" :: e)) := by
  rw [listenLoop]; simp [hs, he]

theorem listenLoop_cons_invalid {Pos : Type} (t : InputConfig) (env : Env Pos)
    (ev : APIEvents) (rest : List APIEvents) (c : Container) (hs : ev.Status = "start")
    (hc : env.InspectContainer ev.ID = .ok c) (hv : isValidContainer t [c.Name] = false) :
    listenLoop t env (ev :: rest) =
      ([.inspectContainer ev.ID], .returned ["invalid container name " ++ c.Name]) := by
  rw [listenLoop]; simp [hs, hc, hv]

theorem listenLoop_cons_get_error {Pos : Type} (t : InputConfig) (env : Env Pos)
    (ev : APIEvents) (rest : List APIEvents) (c : Container) (e : Err)
    (hs : ev.Status = "start") (hc : env.InspectContainer ev.ID = .ok c)
    (hv : isValidContainer t [c.Name] = true) (hg : env.sincedbGet ev.ID = .error e) :
    listenLoop t env (ev :: rest) =
      ([.inspectContainer ev.ID, .sincedbGet ev.ID], .returned ("get sincedb failed" :: e)) := by
  rw [listenLoop]; simp [hs, hc, hv, hg]

theorem listenLoop_cons_spawn {Pos : Type} (t : InputConfig) (env : Env Pos)
    (ev : APIEvents) (rest : List APIEvents) (c : Container) (since : Pos)
    (hs : ev.Status = "start") (hc : env.InspectContainer ev.ID = .ok c)
    (hv : isValidContainer t [c.Name] = true) (hg : env.sincedbGet ev.ID = .ok since) :
    listenLoop t env (ev :: rest) =
      (.inspectContainer ev.ID :: .sincedbGet ev.ID :: .spawn (.inspected c) since ::
        (listenLoop t env rest).1, (listenLoop t env rest).2) := by
  rw [listenLoop]; simp [hs, hc, hv, hg]

theorem listenLoop_append {Pos : Type} (t : InputConfig) (env : Env Pos)
    (pre rest : List APIEvents) (hpre : (listenLoop t env pre).2 = .waiting) :
    listenLoop t env (pre ++ rest) =
      ((listenLoop t env pre).1 ++ (listenLoop t env rest).1, (listenLoop t env rest).2) := by
  induction pre with
  | nil => simp [listenLoop]
  | cons ev pre ih =>
    rw [List.cons_append]
    by_cases hs : ev.Status = "start"
    · cases hc : env.InspectContainer ev.ID with
      | error e => rw [listenLoop_cons_inspect_error t env ev pre e hs hc] at hpre; simp at hpre
      | ok c =>
        cases hv : isValidContainer t [c.Name] with
        | false => rw [listenLoop_cons_invalid t env ev pre c hs hc hv] at hpre; simp at hpre
        | true =>
          cases hg : env.sincedbGet ev.ID with
          | error e =>
            rw [listenLoop_cons_get_error t env ev pre c e hs hc hv hg] at hpre; simp at hpre
          | ok since =>
            rw [listenLoop_cons_spawn t env ev pre c since hs hc hv hg] at hpre
            rw [listenLoop_cons_spawn t env ev _ c since hs hc hv hg,
              listenLoop_cons_spawn t env ev pre c since hs hc hv hg, ih hpre]
            simp
    · rw [listenLoop_cons_other t env ev pre hs] at hpre
      rw [listenLoop_cons_other t env ev _ hs, listenLoop_cons_other t env ev pre hs, ih hpre]

/-- The shape of a run of `start` whose snapshot phase and subscription
succeed. -/
theorem start_live {Pos : Type} (t : InputConfig) (env : Env Pos) (events : List APIEvents)
    (L : List APIContainers) (hlist : env.ListContainers = .ok L)
    (hsnap : (snapshotLoop t env L).2 = none) (hsub : env.AddEventListener = none) :
    start t env events =
      (.listContainers :: (snapshotLoop t env L).1 ++
        .addEventListener :: (listenLoop t env events).1 ++ deferred (listenLoop t env events).2,
        (listenLoop t env events).2) := by
  simp [start, hlist, hsnap, hsub]

theorem snapshotLoop_all_found {Pos : Type} (t : InputConfig) (env : Env Pos)
    (L : List APIContainers) (pos : String → Pos)
    (hget : ∀ c ∈ L, isValidContainer t c.Names = true → env.sincedbGet c.ID = .ok (pos c.ID)) :
    snapshotLoop t env L =
      ((L.filter (fun c => isValidContainer t c.Names)).flatMap
        (fun c => [.sincedbGet c.ID, .spawn (.listed c) (pos c.ID)]), none) := by
  induction L with
  | nil => simp [snapshotLoop]
  | cons c L ih =>
    have ih' := ih (fun d hd => hget d (List.mem_cons_of_mem _ hd))
    rw [snapshotLoop]
    cases hv : isValidContainer t c.Names with
    | false => simp [hv, ih']
    | true => simp [hv, hget c (List.mem_cons_self _ _) hv, ih']

theorem index_lt_of_split {α : Type} (A B : List α) (p q : α → Bool)
    (hA : ∀ a ∈ A, p a = false) (hB : ∀ b ∈ B, q b = false) (i j : Nat) (x y : α)
    (hi : (A ++ B)[i]? = some x) (hj : (A ++ B)[j]? = some y)
    (hx : p x = true) (hy : q y = true) : j < i := by
  have hj' : j < A.length := by
    by_contra h
    rw [List.getElem?_append_right (Nat.le_of_not_lt h)] at hj
    have := hB y (List.getElem?_mem hj)
    simp [hy] at this
  have hi' : A.length ≤ i := by
    by_contra h
    rw [List.getElem?_append_left (Nat.lt_of_not_le h)] at hi
    have := hA x (List.getElem?_mem hi)
    simp [hx] at this
  omega

/-- C3 (as stated, refuted): two `start` events for the container `c3`, whose
inspected name `/web-3` passes the filter, make the listener loop spawn two
tail tasks for `c3`; the IDs with a spawned task contain `c3` twice. -/
theorem c3_two_starts_spawn_two_tasks :
    spawnedIDs (start webDbConfig demoEnv [⟨"start", "c3"⟩, ⟨"start", "c3"⟩]).1 =
        ["c1", "c3", "c3"] ∧
      ¬ (spawnedIDs (start webDbConfig demoEnv [⟨"start", "c3"⟩, ⟨"start", "c3"⟩]).1).Nodup := by
  decide

/-- C3 (amended): for a container ID whose inspection succeeds with a name that
passes the filter and whose checkpoint lookup succeeds, handling two `start`
events for that ID one after the other spawns two `containerLogLoop` tasks for
it, one per event, each after its own inspection and checkpoint lookup; the
listener loop then goes on with the following events. -/
theorem listenLoop_two_starts {Pos : Type} (t : InputConfig) (env : Env Pos) (id : String)
    (c : Container) (since : Pos) (rest : List APIEvents)
    (hc : env.InspectContainer id = .ok c) (hid : c.ID = id)
    (hv : isValidContainer t [c.Name] = true) (hg : env.sincedbGet id = .ok since) :
    listenLoop t env (⟨"start", id⟩ :: ⟨"start", id⟩ :: rest) =
        (.inspectContainer id :: .sincedbGet id :: .spawn (.inspected c) since ::
          .inspectContainer id :: .sincedbGet id :: .spawn (.inspected c) since ::
          (listenLoop t env rest).1, (listenLoop t env rest).2) ∧
      spawnedIDs (listenLoop t env (⟨"start", id⟩ :: ⟨"start", id⟩ :: rest)).1 =
        id :: id :: spawnedIDs (listenLoop t env rest).1 := by
  have h : listenLoop t env (⟨"start", id⟩ :: ⟨"start", id⟩ :: rest) =
      (.inspectContainer id :: .sincedbGet id :: .spawn (.inspected c) since ::
        .inspectContainer id :: .sincedbGet id :: .spawn (.inspected c) since ::
        (listenLoop t env rest).1, (listenLoop t env rest).2) := by
    rw [listenLoop_cons_spawn t env ⟨"start", id⟩ _ c since rfl hc hv hg,
      listenLoop_cons_spawn t env ⟨"start", id⟩ _ c since rfl hc hv hg]
  refine ⟨h, ?_⟩
  rw [h]
  simp [spawnedIDs, LogTarget.ID, hid]

/-- Witness for C3 (amended): two `start` events for `c3` in the demo daemon. -/
theorem listenLoop_two_starts_witness :
    listenLoop webDbConfig demoEnv [⟨"start", "c3"⟩, ⟨"start", "c3"⟩] =
        (.inspectContainer "c3" :: .sincedbGet "c3" :: .spawn (.inspected ⟨"c3", "/web-3"⟩) 0 ::
          .inspectContainer "c3" :: .sincedbGet "c3" :: .spawn (.inspected ⟨"c3", "/web-3"⟩) 0 ::
          (listenLoop webDbConfig demoEnv []).1, (listenLoop webDbConfig demoEnv []).2) ∧
      spawnedIDs (listenLoop webDbConfig demoEnv [⟨"start", "c3"⟩, ⟨"start", "c3"⟩]).1 =
        "c3" :: "c3" :: spawnedIDs (listenLoop webDbConfig demoEnv []).1 :=
  listenLoop_two_starts webDbConfig demoEnv "c3" ⟨"c3", "/web-3"⟩ 0 []
    rfl rfl (by decide) rfl

/-- C4 (as stated, refuted): a `start` event whose inspection fails (`zz`) makes
`start` return an error; the following `start` event for the eligible
container `c3` is never handled. -/
theorem c4_bad_start_event_is_fatal :
    start webDbConfig demoEnv [⟨"start", "zz"⟩, ⟨"start", "c3"⟩] =
      ([.listContainers, .sincedbGet "c1", .spawn (.listed ⟨"c1", ["/web-1"]⟩) 7,
        .addEventListener, .inspectContainer "zz",
        .logError ["inspect container failed", "no such container"]],
        .returned ["inspect container failed", "no such container"]) := by
  decide

/-- C4 (amended): when the listener loop reaches a `start` event for which
`InspectContainer` returns an error, it spawns no tail task for that event and
`start` returns the error `inspect container failed` in front of the cause,
which the deferred function logs; the events after it are not handled. -/
theorem start_bad_start_event {Pos : Type} (t : InputConfig) (env : Env Pos)
    (L : List APIContainers) (pre post : List APIEvents) (ev : APIEvents) (e : Err)
    (hlist : env.ListContainers = .ok L) (hsnap : (snapshotLoop t env L).2 = none)
    (hsub : env.AddEventListener = none) (hpre : (listenLoop t env pre).2 = .waiting)
    (hs : ev.Status = "start") (he : env.InspectContainer ev.ID = .error e) :
    start t env (pre ++ ev :: post) =
      (.listContainers :: (snapshotLoop t env L).1 ++
        .addEventListener :: (listenLoop t env pre).1 ++
        [.inspectContainer ev.ID, .logError ("inspect container failed" :: e)],
        .returned ("inspect container failed" :: e)) := by
  rw [start_live t env _ L hlist hsnap hsub, listenLoop_append t env pre _ hpre,
    listenLoop_cons_inspect_error t env ev post e hs he]
  simp [deferred]

/-- Witness for C4 (amended): after a `stop` event, a `start` event for the
unknown container `zz` ends the run of `start`. -/
theorem start_bad_start_event_witness :
    start webDbConfig demoEnv ([⟨"stop", "c1"⟩] ++ ⟨"start", "zz"⟩ :: [⟨"start", "c3"⟩]) =
      (.listContainers ::
        (snapshotLoop webDbConfig demoEnv [⟨"c1", ["/web-1"]⟩, ⟨"c2", ["/db-1"]⟩]).1 ++
        .addEventListener :: (listenLoop webDbConfig demoEnv [⟨"stop", "c1"⟩]).1 ++
        [.inspectContainer "zz", .logError ("inspect container failed" :: ["no such container"])],
        .returned ("inspect container failed" :: ["no such container"])) :=
  start_bad_start_event webDbConfig demoEnv [⟨"c1", ["/web-1"]⟩, ⟨"c2", ["/db-1"]⟩]
    [⟨"stop", "c1"⟩] [⟨"start", "c3"⟩] ⟨"start", "zz"⟩ ["no such container"]
    rfl (by decide) rfl (by decide) rfl rfl

/-- C5: when `ListContainers` succeeds with the list `L` and every checkpoint
lookup succeeds, what `start` does before it calls `AddEventListener` is the
listing followed, for each container of `L` that passes the filter, in the
order of `L`, by the lookup `sincedb.Get(c.ID)` and the spawn of a tail task
for `c` with the position found; containers that fail the filter get neither
a lookup nor a task. -/
theorem start_snapshot_phase {Pos : Type} (t : InputConfig) (env : Env Pos)
    (events : List APIEvents) (L : List APIContainers) (pos : String → Pos)
    (hlist : env.ListContainers = .ok L)
    (hget : ∀ c ∈ L, isValidContainer t c.Names = true → env.sincedbGet c.ID = .ok (pos c.ID)) :
    beforeSubscription (start t env events).1 =
      .listContainers :: (L.filter (fun c => isValidContainer t c.Names)).flatMap
        (fun c => [.sincedbGet c.ID, .spawn (.listed c) (pos c.ID)]) := by
  have hsnap := snapshotLoop_all_found t env L pos hget
  have hno := snapshotLoop_not_subscribe t env L
  rw [hsnap] at hno
  have hpos : ∀ a ∈ (Action.listContainers : Action Pos) ::
      (L.filter (fun c => isValidContainer t c.Names)).flatMap
        (fun c => [.sincedbGet c.ID, .spawn (.listed c) (pos c.ID)]),
      (fun a => !a.isAddEventListener) a = true := by
    intro a ha
    rcases List.mem_cons.mp ha with rfl | ha
    · rfl
    · simp [hno a ha]
  cases hsub : env.AddEventListener with
  | some e =>
    have hst : (start t env events).1 =
        (.listContainers :: (L.filter (fun c => isValidContainer t c.Names)).flatMap
          (fun c => [.sincedbGet c.ID, .spawn (.listed c) (pos c.ID)])) ++
          [.addEventListener, .logError ("listen docker event failed" :: e)] := by
      simp [start, hlist, hsnap, hsub]
    rw [beforeSubscription, hst, List.takeWhile_append_of_pos hpos]
    simp [Action.isAddEventListener]
  | none =>
    have hst : (start t env events).1 =
        (.listContainers :: (L.filter (fun c => isValidContainer t c.Names)).flatMap
          (fun c => [.sincedbGet c.ID, .spawn (.listed c) (pos c.ID)])) ++
          (.addEventListener :: ((listenLoop t env events).1 ++
            deferred (listenLoop t env events).2)) := by
      simp [start, hlist, hsnap, hsub]
    rw [beforeSubscription, hst, List.takeWhile_append_of_pos hpos]
    simp [Action.isAddEventListener]

/-- Witness for C5: the demo daemon lists `c1` (eligible) and `c2` (excluded);
before subscribing, `start` looks up and spawns `c1` only. -/
theorem start_snapshot_phase_witness :
    beforeSubscription (start webDbConfig demoEnv [⟨"start", "c3"⟩]).1 =
      .listContainers ::
        (([⟨"c1", ["/web-1"]⟩, ⟨"c2", ["/db-1"]⟩] : List APIContainers).filter
          (fun c => isValidContainer webDbConfig c.Names)).flatMap
        (fun c => [.sincedbGet c.ID, .spawn (.listed c) (if c.ID = "c1" then 7 else 0)]) :=
  start_snapshot_phase webDbConfig demoEnv [⟨"start", "c3"⟩]
    [⟨"c1", ["/web-1"]⟩, ⟨"c2", ["/db-1"]⟩] (fun id => if id = "c1" then 7 else 0) rfl
    (fun _ _ _ => rfl)

/-- C6 (as stated, refuted): in the run of `start` on the demo daemon, the tail
task of the listed container `c1` is spawned as the third action and
`AddEventListener` is called only as the fourth. -/
theorem c6_subscription_after_snapshot :
    (start webDbConfig demoEnv []).1 =
        [.listContainers, .sincedbGet "c1", .spawn (.listed ⟨"c1", ["/web-1"]⟩) 7,
          .addEventListener] ∧
      (start webDbConfig demoEnv []).1[2]? = some (.spawn (.listed ⟨"c1", ["/web-1"]⟩) 7) ∧
      (start webDbConfig demoEnv []).1[3]? = some .addEventListener := by
  decide

/-- C6 (amended): in every run of `start`, `AddEventListener` is called after
the iteration over the listed containers: in the sequence of actions, every
spawn of a tail task for a listed container occurs before the call of
`AddEventListener`. -/
theorem start_subscribes_after_snapshot {Pos : Type} (t : InputConfig) (env : Env Pos)
    (events : List APIEvents) (i j : Nat) (c : APIContainers) (since : Pos)
    (hi : (start t env events).1[i]? = some .addEventListener)
    (hj : (start t env events).1[j]? = some (.spawn (.listed c) since)) :
    j < i := by
  cases hlist : env.ListContainers with
  | error e =>
    have hst : (start t env events).1 =
        [.listContainers, .logError ("list docker container failed" :: e)] := by
      simp [start, hlist]
    rw [hst] at hi
    have := List.getElem?_mem hi
    simp at this
  | ok L =>
    have hno := snapshotLoop_not_subscribe t env L
    have hA : ∀ a ∈ Action.listContainers :: (snapshotLoop t env L).1,
        a.isAddEventListener = false := by
      intro a ha
      rcases List.mem_cons.mp ha with rfl | ha
      · rfl
      · exact hno a ha
    cases hsnap : (snapshotLoop t env L).2 with
    | some err =>
      have hst : (start t env events).1 =
          .listContainers :: (snapshotLoop t env L).1 ++ [.logError err] := by
        simp [start, hlist, hsnap]
      rw [hst] at hi
      have hmem := List.getElem?_mem hi
      rcases List.mem_append.mp hmem with h | h
      · have := hA _ h
        simp [Action.isAddEventListener] at this
      · simp at h
    | none =>
      cases hsub : env.AddEventListener with
      | some e =>
        have hst : (start t env events).1 =
            (.listContainers :: (snapshotLoop t env L).1) ++
              [.addEventListener, .logError ("listen docker event failed" :: e)] := by
          simp [start, hlist, hsnap, hsub]
        rw [hst] at hi hj
        exact index_lt_of_split _ _ Action.isAddEventListener Action.isSnapshotSpawn hA
          (by simp [Action.isSnapshotSpawn]) i j _ _ hi hj rfl rfl
      | none =>
        have hst : (start t env events).1 =
            (.listContainers :: (snapshotLoop t env L).1) ++
              (.addEventListener :: ((listenLoop t env events).1 ++
                deferred (listenLoop t env events).2)) := by
          simp [start, hlist, hsnap, hsub]
        rw [hst] at hi hj
        refine index_lt_of_split _ _ Action.isAddEventListener Action.isSnapshotSpawn hA
          ?_ i j _ _ hi hj rfl rfl
        intro b hb
        rcases List.mem_cons.mp hb with rfl | hb
        · rfl
        · rcases List.mem_append.mp hb with h | h
          · exact listenLoop_not_snapshot_spawn t env events b h
          · exact deferred_not_snapshot_spawn _ b h

/-- Witness for C6 (amended): in the run on the demo daemon the spawn for `c1`
has index 2 and the subscription has index 3. -/
theorem start_subscribes_after_snapshot_witness :
    (start webDbConfig demoEnv []).1[3]? = some .addEventListener ∧
      (start webDbConfig demoEnv []).1[2]? = some (.spawn (.listed ⟨"c1", ["/web-1"]⟩) 7) ∧
      2 < 3 :=
  ⟨by decide, by decide,
    start_subscribes_after_snapshot webDbConfig demoEnv [] 3 2 ⟨"c1", ["/web-1"]⟩ 7
      (by decide) (by decide)⟩

theorem start_spawn_listed_valid {Pos : Type} (t : InputConfig) (env : Env Pos)
    (events : List APIEvents) (c : APIContainers) (since : Pos)
    (h : Action.spawn (.listed c) since ∈ (start t env events).1) :
    isValidContainer t c.Names = true := by
  cases hlist : env.ListContainers with
  | error e => simp [start, hlist] at h
  | ok L =>
    cases hsnap : (snapshotLoop t env L).2 with
    | some err =>
      simp [start, hlist, hsnap] at h
      exact (snapshotLoop_spawn_valid t env L c since h).2
    | none =>
      cases hsub : env.AddEventListener with
      | some e =>
        simp [start, hlist, hsnap, hsub] at h
        exact (snapshotLoop_spawn_valid t env L c since h).2
      | none =>
        rw [start_live t env events L hlist hsnap hsub] at h
        simp only [List.cons_append, List.mem_cons, List.mem_append, reduceCtorEq,
          false_or] at h
        rcases h with (h | h) | h
        · exact (snapshotLoop_spawn_valid t env L c since h).2
        · have := listenLoop_not_snapshot_spawn t env events _ h
          simp [Action.isSnapshotSpawn] at this
        · have := deferred_not_snapshot_spawn _ _ h
          simp [Action.isSnapshotSpawn] at this

theorem containsSubstr_of_isPrefixOf (pat s : List Char) (h : pat.isPrefixOf s = true) :
    containsSubstr pat s = true := by
  cases s with
  | nil =>
    cases pat with
    | nil => rfl
    | cons a pat => simp [List.isPrefixOf] at h
  | cons c cs => simp [containsSubstr, h]

theorem containsSubstr_of_infix (pat s : List Char) (h : pat <:+: s) :
    containsSubstr pat s = true := by
  obtain ⟨pre, post, rfl⟩ := h
  induction pre with
  | nil =>
    apply containsSubstr_of_isPrefixOf
    rw [List.isPrefixOf_iff_prefix, List.nil_append]
    exact List.prefix_append _ _
  | cons a pre ih =>
    simp only [List.cons_append, List.append_assoc, containsSubstr, Bool.or_eq_true]
    right
    simpa using ih

/-- C7: when `InitHandler` succeeds on a configuration whose pattern lists are
those of `DefaultInputConfig` (exclude pattern `gogstash`, no include
pattern), and the compiled pattern `gogstash` matches every string that
contains `gogstash`, then `isValidContainer` returns `false` for every name
list containing a name that has `gogstash` as a substring, and no run of
`start` spawns a snapshot tail task for a listed container with such names. -/
theorem default_config_rejects_gogstash (d : InitDeps) (conf reflected : InputConfig)
    (re : Regexp) (names : List String) (n : String)
    (hrefl : d.ReflectConfig DefaultInputConfig = .ok reflected)
    (hinc : reflected.IncludePatterns = DefaultInputConfig.IncludePatterns)
    (hexc : reflected.ExcludePatterns = DefaultInputConfig.ExcludePatterns)
    (hincs : reflected.includes = []) (hexcs : reflected.excludes = [])
    (hre : d.MustCompile "gogstash" = some re)
    (hmatch : ∀ s : String, "gogstash".data <:+: s.data → re.MatchString s = true)
    (hinit : InitHandler d = .ok conf)
    (hn : n ∈ names) (hsub : "gogstash".data <:+: n.data) :
    isValidContainer conf names = false ∧
      ∀ (Pos : Type) (env : Env Pos) (events : List APIEvents) (c : APIContainers)
        (since : Pos), c.Names = names →
        Action.spawn (.listed c) since ∉ (start conf env events).1 := by
  have hconf : conf.includes = [] ∧ conf.excludes = [re] := by
    have h1 : compileInto d.MustCompile [] DefaultInputConfig.IncludePatterns = some [] := rfl
    have h2 : compileInto d.MustCompile [] DefaultInputConfig.ExcludePatterns = some [re] := by
      simp [DefaultInputConfig, compileInto, hre]
    unfold InitHandler at hinit
    rw [hrefl] at hinit
    simp only [hincs, hexcs, hinc, hexc, h1, h2] at hinit
    split at hinit
    · cases hinit
    · split at hinit
      · cases hinit
      · split at hinit
        · cases hinit
        · cases hinit
          exact ⟨rfl, rfl⟩
  have hfalse : isValidContainer conf names = false := by
    exact isValidContainer_no_includes_excluded conf names n hconf.1 hn
      ⟨re, by simp [hconf.2], hmatch n hsub⟩
  refine ⟨hfalse, ?_⟩
  intro Pos env events c since hc hmem
  have := start_spawn_listed_valid conf env events c since hmem
  rw [hc, hfalse] at this
  cases this

/-- Witness for C7: with the default configuration and substring matchers,
the name list `["/gogstash-worker"]` is rejected. -/
theorem default_config_rejects_gogstash_witness :
    isValidContainer gogstashConfig ["/gogstash-worker"] = false ∧
      ∀ (Pos : Type) (env : Env Pos) (events : List APIEvents) (c : APIContainers)
        (since : Pos), c.Names = ["/gogstash-worker"] →
        Action.spawn (.listed c) since ∉ (start gogstashConfig env events).1 :=
  default_config_rejects_gogstash demoDeps gogstashConfig
    DefaultInputConfig (literal "gogstash") ["/gogstash-worker"] "/gogstash-worker"
    rfl rfl rfl rfl rfl rfl
    (fun _ hs => containsSubstr_of_infix _ _ hs)
    rfl (List.mem_singleton.mpr rfl) ⟨['/'], "-worker".data, rfl⟩

end Dockerlog

/-! ## Theorems: the checkpoint store -/

namespace Dockerlog.Checkpoint

theorem lookup_record {Pos : Type} (id : String) (p : Pos) (entries : List (String × Pos)) :
    lookup id (record id p entries) = some p := by
  induction entries with
  | nil => simp [record, lookup]
  | cons kv rest ih =>
    obtain ⟨k, q⟩ := kv
    by_cases h : k = id
    · simp [record, lookup, h]
    · simp [record, lookup, h, ih]

/-- C8: after a successful `Set(X, P)`, `Get(X)` returns `P` with no error, on
the store itself and on a store reloaded with `NewSinceDB` from the file the
`Set` persisted. -/
theorem checkpoint_round_trip {Pos : Type} (beginning : Pos) (db db' : SinceDB Pos)
    (disk disk' : Disk Pos) (X : String) (P : Pos)
    (hset : db.Set disk X P = .ok (db', disk')) :
    db'.Get beginning X = .ok P ∧
      ∃ reloaded, NewSinceDB disk' db.path = .ok reloaded ∧
        reloaded.Get beginning X = .ok P := by
  unfold SinceDB.Set at hset
  split at hset
  · rename_i hw
    simp only [Except.ok.injEq, Prod.mk.injEq] at hset
    obtain ⟨rfl, rfl⟩ := hset
    refine ⟨by simp [SinceDB.Get, lookup_record], ?_⟩
    refine ⟨{ path := db.path, entries := record X P db.entries }, ?_, ?_⟩
    · simp [NewSinceDB, hw]
    · simp [SinceDB.Get, lookup_record]
  · cases hset

/-- Witness for C8: recording position `9` for `c2` in the demo store. -/
theorem checkpoint_round_trip_witness :
    ∃ db' disk', demoDB.Set demoDisk "c2" 9 = .ok (db', disk') ∧
      db'.Get 0 "c2" = .ok 9 ∧
      ∃ reloaded, NewSinceDB disk' demoDB.path = .ok reloaded ∧
        reloaded.Get 0 "c2" = .ok 9 :=
  ⟨_, _, rfl, checkpoint_round_trip 0 demoDB _ demoDisk _ "c2" 9 rfl⟩

end Dockerlog.Checkpoint

/-! ## Theorems: field renaming in the syslog input -/

namespace Syslog

/-- C10: for a `Mutate` map with the single entry `old -> new`, where `old` and
`new` differ and `old` is a key of the event, the event after the rename loop
maps `new` to the value it had under `old`, has no key `old`, and agrees with
the original event on every other key. -/
theorem mutate_single_rename {V : Type} (zero : V) (event : LogParts V) (old new : String)
    (v : V) (hne : old ≠ new) (hold : event old = some v) :
    mutate zero event [(old, new)] new = some v ∧
      mutate zero event [(old, new)] old = none ∧
      ∀ k, k ≠ old → k ≠ new → mutate zero event [(old, new)] k = event k := by
  refine ⟨?_, ?_, ?_⟩
  · simp [mutate, renameField, delete, assign, index, hold, Ne.symm hne]
  · simp [mutate, renameField, delete]
  · intro k hk1 hk2
    simp [mutate, renameField, delete, assign, hk1, hk2]

/-- Witness for C10: renaming `hostname` to `host` in the demo event. -/
theorem mutate_single_rename_witness :
    mutate 0 demoEvent [("hostname", "host")] "host" = some 1 ∧
      mutate 0 demoEvent [("hostname", "host")] "hostname" = none ∧
      ∀ k, k ≠ "hostname" → k ≠ "host" →
        mutate 0 demoEvent [("hostname", "host")] k = demoEvent k :=
  mutate_single_rename 0 demoEvent "hostname" "host" 1 (by decide) rfl

end Syslog
